import Mathlib

/-!
Verification of the crop-to-canvas pipeline of `src/components/ImageCropper.tsx`.

The development shallowly embeds the algorithmic parts of the component:

* the byte-level EXIF segment codec (`extractExifData` / `insertExifData`,
  lines 118-178) over `List ℕ` byte buffers (the base64 encode/decode pair
  `atob`/`btoa` is a bijection between the string form and the byte form, so
  the byte-level model captures the whole codec);
* the crop-coordinate resolution of `createCroppedCanvas` (lines 325-353)
  over `ℚ`;
* the canvas transform sequence of `createCroppedCanvas` (lines 355-366) as
  affine context updates over an arbitrary field, with `cos`/`sin` as
  abstract function parameters;
* the per-pixel brightness/contrast/saturation pass of `createCroppedCanvas`
  (lines 380-426) over `ℚ`, with the `Uint8ClampedArray` store modelled as
  clamp-to-[0,255] followed by round-half-to-even.
-/

/-! ## Binary metadata codec (lines 118-178) -/

/-- Scan of the byte-pair loop in `extractExifData` (line 128): index of the
first occurrence of the two-byte marker `0xFF 0xE1`, scanning adjacent pairs
from the left, `none` when no pair matches. -/
def findFFE1 : List ℕ → Option ℕ
  | a :: b :: rest =>
      if a = 255 ∧ b = 225 then some 0
      else (findFFE1 (b :: rest)).map (· + 1)
  | _ => none

/-- Byte-level body of `extractExifData` (lines 127-137): find the first
`0xFF 0xE1` pair at index `i`, read the big-endian segment length from bytes
`i+2`, `i+3`, and slice out `[i, i+2+length)`.  When the marker sits so close
to the end of the buffer that a length byte is missing, JavaScript computes
`(undefined << 8) + undefined = NaN` as length, and `slice(i, NaN)` is the
empty slice, so the code returns an empty segment in that case. -/
def extractExifData (data : List ℕ) : Option (List ℕ) :=
  match findFFE1 data with
  | none => none
  | some i =>
      if i + 3 < data.length then
        let segLen := 256 * data.getD (i + 2) 0 + data.getD (i + 3) 0
        some ((data.drop i).take (2 + segLen))
      else
        some []

/-- Semantics of `TypedArray.prototype.set(src, off)`: overwrite `dest` with
`src` starting at offset `off`; a `RangeError` is thrown (modelled as `none`)
when the source does not fit. -/
def jsSetAt (dest : List ℕ) (off : ℕ) (src : List ℕ) : Option (List ℕ) :=
  if off + src.length ≤ dest.length then
    some (dest.take off ++ src ++ dest.drop (off + src.length))
  else none

/-- Byte-level body of `insertExifData` (lines 152-177): allocate a zeroed
buffer of combined size, copy the first two bytes (`slice(0, 2)`) of the
target, write the EXIF segment at offset 2, then the rest of the target
(`slice(2)`) after it.  The surrounding `try`/`catch` returns the original
target buffer on any thrown error, modelled by the `none` branches. -/
def insertExifData (imageData exif : List ℕ) : List ℕ :=
  ((jsSetAt (List.replicate (imageData.length + exif.length) 0) 0
      (imageData.take 2)).bind fun r1 =>
    (jsSetAt r1 2 exif).bind fun r2 =>
      jsSetAt r2 (2 + exif.length) (imageData.drop 2)).getD imageData

/-- Metadata decision of `downloadCroppedImage` (lines 444-491): when EXIF
preservation is requested, extract the segment from the original bytes; if a
segment was found and the output format is JPEG, splice it into the freshly
encoded bytes, otherwise deliver the encoded bytes unchanged. -/
def exportBytes (preserveExif isJpeg : Bool) (original encoded : List ℕ) :
    List ℕ :=
  if preserveExif then
    match extractExifData original with
    | some exif => if isJpeg then insertExifData encoded exif else encoded
    | none => encoded
  else encoded

example : findFFE1 [0, 255, 225, 9] = some 1 := by decide
example : findFFE1 [255, 224, 225, 9] = none := by decide
example : extractExifData [0, 255, 225, 0, 4, 7, 8, 9, 1] =
    some [255, 225, 0, 4, 7, 8] := by decide
example : extractExifData [1, 2, 3] = none := by decide
example : insertExifData [1, 2, 3] [9, 9] = [1, 2, 9, 9, 3] := by decide
example : insertExifData [5] [1, 2, 3] = [5] := by decide

/-! ## Coordinate mapper (lines 325-353 of `createCroppedCanvas`) -/

/-- Resolved source rectangle in native-pixel units: the arguments the code
passes to `ctx.drawImage` as `cropX`, `cropY`, and (before output scaling)
`baseWidth`, `baseHeight`. -/
structure SrcRect where
  x : ℚ
  y : ℚ
  w : ℚ
  h : ℚ
  deriving DecidableEq, Repr

/-- Crop-coordinate resolution of `createCroppedCanvas` (lines 325-353):
`scaleX = naturalWidth / width`, `zoomScaleX = scaleX / zoom`; percent-unit
crops use `crop.v / 100 * natural`, pixel-unit crops use `crop.v * zoomScale`;
`baseWidth`/`baseHeight` are floored with `Math.floor`, `cropX`/`cropY` are
used as computed. -/
def resolveSourceRect (unitPercent : Bool) (cx cy cw ch nw nh dw dh zoom : ℚ) :
    SrcRect :=
  let scaleX := nw / dw
  let scaleY := nh / dh
  let zoomScaleX := scaleX / zoom
  let zoomScaleY := scaleY / zoom
  let baseW : ℚ := if unitPercent then (⌊cw / 100 * nw⌋ : ℤ) else (⌊cw * zoomScaleX⌋ : ℤ)
  let baseH : ℚ := if unitPercent then (⌊ch / 100 * nh⌋ : ℤ) else (⌊ch * zoomScaleY⌋ : ℤ)
  let px : ℚ := if unitPercent then cx / 100 * nw else cx * zoomScaleX
  let py : ℚ := if unitPercent then cy / 100 * nh else cy * zoomScaleY
  ⟨px, py, baseW, baseH⟩

example : resolveSourceRect true 1 0 10 10 150 100 150 100 1 =
    ⟨3/2, 0, 15, 10⟩ := by
  simp only [resolveSourceRect, SrcRect.mk.injEq, if_true]
  norm_num
example : resolveSourceRect false 0 0 100 50 400 200 200 100 2 =
    ⟨0, 0, 100, 50⟩ := by
  simp only [resolveSourceRect, SrcRect.mk.injEq, if_false]
  norm_num

/-! ## Transform compositor (lines 355-366 of `createCroppedCanvas`) -/

/-- Affine drawing-context matrix in canvas layout: a point `(x, y)` in local
coordinates maps to `(a*x + c*y + e, b*x + d*y + f)` in device coordinates. -/
structure Ctx (K : Type) where
  a : K
  b : K
  c : K
  d : K
  e : K
  f : K
  deriving DecidableEq, Repr

/-- Semantics of `ctx.translate(dx, dy)`: post-compose the current matrix
with a translation. -/
def ctxTranslate {K : Type} [Field K] (m : Ctx K) (dx dy : K) : Ctx K :=
  ⟨m.a, m.b, m.c, m.d, m.a * dx + m.c * dy + m.e, m.b * dx + m.d * dy + m.f⟩

/-- Semantics of `ctx.scale(sx, sy)`: post-compose the current matrix with an
axis-aligned scaling. -/
def ctxScale {K : Type} [Field K] (m : Ctx K) (sx sy : K) : Ctx K :=
  ⟨m.a * sx, m.b * sx, m.c * sy, m.d * sy, m.e, m.f⟩

/-- Semantics of `ctx.rotate(t)`: post-compose the current matrix with a
rotation by `t` radians, with the cosine and sine supplied as abstract
functions `cosF`, `sinF` (instantiable with `Real.cos`, `Real.sin`). -/
def ctxRotate {K : Type} [Field K] (cosF sinF : K → K) (m : Ctx K) (t : K) :
    Ctx K :=
  ⟨m.a * cosF t + m.c * sinF t, m.b * cosF t + m.d * sinF t,
   m.c * cosF t - m.a * sinF t, m.d * cosF t - m.b * sinF t, m.e, m.f⟩

/-- One affine operation issued to the drawing context. -/
inductive CtxOp (K : Type) where
  | translate (dx dy : K)
  | scale (sx sy : K)
  | rotate (t : K)
  deriving DecidableEq, Repr

/-- Interpret one operation on a context matrix. -/
def applyOp {K : Type} [Field K] (cosF sinF : K → K) (m : Ctx K) :
    CtxOp K → Ctx K
  | .translate dx dy => ctxTranslate m dx dy
  | .scale sx sy => ctxScale m sx sy
  | .rotate t => ctxRotate cosF sinF m t

/-- Interpret a sequence of operations, left to right. -/
def applyOps {K : Type} [Field K] (cosF sinF : K → K) (m : Ctx K)
    (ops : List (CtxOp K)) : Ctx K :=
  ops.foldl (applyOp cosF sinF) m

/-- Transform sequence of `createCroppedCanvas` (lines 355-366), embedded as
the source writes it: `rotRad = rotation * π / 180`; translate by the flip
offsets, scale by the flip signs, translate to the canvas center, rotate by
`rotRad`, translate back.  `piK` abstracts the constant `Math.PI`. -/
def codeApplyTransforms {K : Type} [Field K] (cosF sinF : K → K) (piK W H : K)
    (flipHorizontal flipVertical : Bool) (rotation : K) (m : Ctx K) : Ctx K :=
  ctxTranslate
    (ctxRotate cosF sinF
      (ctxTranslate
        (ctxScale
          (ctxTranslate m (if flipHorizontal then W else 0)
            (if flipVertical then H else 0))
          (if flipHorizontal then -1 else 1) (if flipVertical then -1 else 1))
        (W / 2) (H / 2))
      (rotation * piK / 180))
    (-(W / 2)) (-(H / 2))

/-- The ordered operation list asserted by the specification: flip translate,
flip scale, center translate, rotation, uncenter translate. -/
def claimedOps {K : Type} [Field K] (piK W H : K)
    (flipHorizontal flipVertical : Bool) (rotation : K) : List (CtxOp K) :=
  [ .translate (if flipHorizontal then W else 0) (if flipVertical then H else 0),
    .scale (if flipHorizontal then -1 else 1) (if flipVertical then -1 else 1),
    .translate (W / 2) (H / 2),
    .rotate (rotation * piK / 180),
    .translate (-(W / 2)) (-(H / 2)) ]

example : codeApplyTransforms (K := ℚ) id id 3 10 20 true false 90
    ⟨1, 0, 0, 1, 0, 0⟩ =
    applyOps id id ⟨1, 0, 0, 1, 0, 0⟩ (claimedOps 3 10 20 true false 90) := rfl

/-! ## Pixel adjustment engine (lines 380-426 of `createCroppedCanvas`)

JavaScript numbers are modelled as exact rationals; a store into the
`Uint8ClampedArray` backing `ImageData` clamps to `[0, 255]` and rounds
half to even, per the ECMAScript `ToUint8Clamp` conversion.  The code
already wraps every stored expression in `Math.min(255, Math.max(0, v))`,
so the store itself only rounds. -/

/-- The explicit `Math.min(255, Math.max(0, v))` clamp the code applies to
every stored channel value. -/
def clamp255 (q : ℚ) : ℚ := min 255 (max 0 q)

/-- Round half to even, the tie-breaking rule of `ToUint8Clamp`. -/
def roundHalfEven (q : ℚ) : ℤ :=
  if q - ⌊q⌋ < 1 / 2 then ⌊q⌋
  else if 1 / 2 < q - ⌊q⌋ then ⌊q⌋ + 1
  else if ⌊q⌋ % 2 = 0 then ⌊q⌋ else ⌊q⌋ + 1

/-- A store of a channel value into the `Uint8ClampedArray`. -/
def toByte (q : ℚ) : ℕ := (roundHalfEven (clamp255 q)).toNat

/-- One RGBA pixel of the `ImageData` buffer: the four consecutive bytes
`data[i] .. data[i+3]` visited by the `i += 4` loop. -/
structure Pixel where
  r : ℕ
  g : ℕ
  b : ℕ
  a : ℕ
  deriving DecidableEq, Repr

/-- The `adjustments` multiplier triple of one entry of the `filters` preset
table (lines 211-267). -/
structure FilterPreset where
  brightness : ℕ
  contrast : ℕ
  saturation : ℕ
  deriving DecidableEq, Repr

def normal : FilterPreset := ⟨100, 100, 100⟩

def clarendon : FilterPreset := ⟨105, 120, 135⟩

def gingham : FilterPreset := ⟨105, 90, 85⟩

def moon : FilterPreset := ⟨110, 110, 0⟩

def lark : FilterPreset := ⟨110, 90, 110⟩

def reyes : FilterPreset := ⟨110, 85, 75⟩

def juno : FilterPreset := ⟨100, 110, 140⟩

def slumber : FilterPreset := ⟨105, 100, 66⟩

def crema : FilterPreset := ⟨115, 125, 90⟩

def valencia : FilterPreset := ⟨108, 108, 108⟩

def sierra : FilterPreset := ⟨90, 95, 100⟩

/-- All entries of the `filters` preset table, in source order. -/
def filterTable : List FilterPreset :=
  [normal, clarendon, gingham, moon, lark, reyes, juno, slumber, crema,
   valencia, sierra]

/-- Effective multiplier of one stage (lines 386-396): the manual percentage
divided by 100 and, when a filter is active, further multiplied by the
filter's percentage divided by 100 — `(filter / 100) * (manual / 100)`. -/
def effVal (manual : ℕ) (filt : Option ℕ) : ℚ :=
  match filt with
  | some f => ((f : ℚ) / 100) * ((manual : ℚ) / 100)
  | none => (manual : ℚ) / 100

/-- Brightness stage (lines 401-405): applied only when the manual
brightness differs from 100; each colour channel is multiplied by the
effective brightness value and stored. -/
def stageBrightness (manual : ℕ) (bv : ℚ) (p : Pixel) : Pixel :=
  if manual ≠ 100 then
    ⟨toByte ((p.r : ℚ) * bv), toByte ((p.g : ℚ) * bv),
     toByte ((p.b : ℚ) * bv), p.a⟩
  else p

/-- The contrast factor expression of line 409, written exactly as in the
source with no guard on the denominator (total `ℚ` division returns 0 on a
zero denominator; JavaScript returns `Infinity`). -/
def contrastFactor (cv : ℚ) : ℚ :=
  (259 * (cv * 255 + 255)) / (255 * (259 - cv * 255))

/-- Contrast stage (lines 408-413): applied only when the manual contrast
differs from 100; each colour channel becomes `factor * (x - 128) + 128`. -/
def stageContrast (manual : ℕ) (cv : ℚ) (p : Pixel) : Pixel :=
  if manual ≠ 100 then
    ⟨toByte (contrastFactor cv * ((p.r : ℚ) - 128) + 128),
     toByte (contrastFactor cv * ((p.g : ℚ) - 128) + 128),
     toByte (contrastFactor cv * ((p.b : ℚ) - 128) + 128), p.a⟩
  else p

/-- The weighted grayscale value of line 417:
`0.2989 * R + 0.5870 * G + 0.1140 * B`, decimals taken as exact rationals. -/
def grayOf (p : Pixel) : ℚ :=
  (2989 / 10000) * (p.r : ℚ) + (5870 / 10000) * (p.g : ℚ) +
    (1140 / 10000) * (p.b : ℚ)

/-- Saturation stage (lines 416-421): applied only when the manual
saturation differs from 100; luma `gray` is computed from the current
channel values, then each channel becomes `gray + sv * (x - gray)`. -/
def stageSaturation (manual : ℕ) (sv : ℚ) (p : Pixel) : Pixel :=
  if manual ≠ 100 then
    ⟨toByte (grayOf p + sv * ((p.r : ℚ) - grayOf p)),
     toByte (grayOf p + sv * ((p.g : ℚ) - grayOf p)),
     toByte (grayOf p + sv * ((p.b : ℚ) - grayOf p)), p.a⟩
  else p

/-- Per-pixel body of the adjustment loop (lines 399-422): brightness, then
contrast, then saturation, each reading the previous stage's stored bytes. -/
def applyPixel (brightness contrast saturation : ℕ) (filt : Option FilterPreset)
    (p : Pixel) : Pixel :=
  stageSaturation saturation (effVal saturation (filt.map FilterPreset.saturation))
    (stageContrast contrast (effVal contrast (filt.map FilterPreset.contrast))
      (stageBrightness brightness
        (effVal brightness (filt.map FilterPreset.brightness)) p))

/-- The adjustment pass of `createCroppedCanvas` (lines 380-426): the pixel
loop runs only when some manual value differs from 100 or a filter is
active (the string `activeFilter` is truthy), and maps the per-pixel body
over the buffer. -/
def applyAdjustments (brightness contrast saturation : ℕ)
    (filt : Option FilterPreset) (px : List Pixel) : List Pixel :=
  if brightness ≠ 100 ∨ contrast ≠ 100 ∨ saturation ≠ 100 ∨ filt.isSome then
    px.map (applyPixel brightness contrast saturation filt)
  else px



/-! ## Helper lemmas for the metadata codec -/

lemma findFFE1_cons (a b : ℕ) (l : List ℕ) :
    findFFE1 (a :: b :: l) =
      if a = 255 ∧ b = 225 then some 0
      else (findFFE1 (b :: l)).map (· + 1) := rfl

lemma findFFE1_eq_some {l : List ℕ} {i : ℕ} (h : findFFE1 l = some i) :
    i + 1 < l.length ∧ l.getD i 0 = 255 ∧ l.getD (i + 1) 0 = 225 := by
  induction l generalizing i with
  | nil => simp [findFFE1] at h
  | cons a tail ih =>
    cases tail with
    | nil => simp [findFFE1] at h
    | cons b rest =>
      rw [findFFE1_cons] at h
      by_cases hab : a = 255 ∧ b = 225
      · rw [if_pos hab] at h
        obtain rfl : i = 0 := by
          cases h
          rfl
        simp [hab.1, hab.2]
      · rw [if_neg hab] at h
        cases hfind : findFFE1 (b :: rest) with
        | none => rw [hfind] at h; simp at h
        | some j =>
          rw [hfind] at h
          simp only [Option.map_some'] at h
          obtain rfl : i = j + 1 := by
            cases h
            rfl
          obtain ⟨hlen, h255, h225⟩ := ih hfind
          refine ⟨by simpa using Nat.succ_lt_succ hlen, ?_, ?_⟩
          · simpa using h255
          · simpa using h225

lemma jsSetAt_of_le (dest : List ℕ) (off : ℕ) (src : List ℕ)
    (h : off + src.length ≤ dest.length) :
    jsSetAt dest off src =
      some (dest.take off ++ src ++ dest.drop (off + src.length)) := by
  rw [jsSetAt, if_pos h]

lemma insertExifData_eq (t s : List ℕ) (h : 2 ≤ t.length) :
    insertExifData t s = t.take 2 ++ s ++ t.drop 2 := by
  obtain ⟨t0, t1, rest, rfl⟩ : ∃ t0 t1 rest, t = t0 :: t1 :: rest := by
    match t, h with
    | t0 :: t1 :: rest, _ => exact ⟨t0, t1, rest, rfl⟩
  have htk : (t0 :: t1 :: rest).take 2 = [t0, t1] := rfl
  have hdp : (t0 :: t1 :: rest).drop 2 = rest := rfl
  have e1 : jsSetAt
      (List.replicate ((t0 :: t1 :: rest).length + s.length) 0) 0
      ((t0 :: t1 :: rest).take 2) =
      some (t0 :: t1 :: List.replicate (rest.length + s.length) 0) := by
    rw [jsSetAt_of_le _ _ _
      (by simp only [List.length_take, List.length_cons,
        List.length_replicate]; omega)]
    rw [htk]
    simp only [List.take_zero, List.nil_append, List.length_cons,
      List.length_nil, List.length_replicate, Nat.zero_add,
      List.drop_replicate, Option.some.injEq, List.cons_append,
      List.cons.injEq, true_and]
    congr 1
    omega
  have e2 : jsSetAt (t0 :: t1 :: List.replicate (rest.length + s.length) 0)
      2 s = some (t0 :: t1 :: (s ++ List.replicate rest.length 0)) := by
    rw [jsSetAt_of_le _ _ _
      (by simp only [List.length_cons, List.length_replicate]; omega)]
    have h2 : 2 + s.length = s.length + 1 + 1 := by omega
    rw [h2]
    have htk2 : (t0 :: t1 :: List.replicate (rest.length + s.length) 0).take 2
        = [t0, t1] := rfl
    rw [htk2]
    simp only [List.drop_succ_cons, List.drop_replicate, Option.some.injEq,
      List.cons_append, List.nil_append, List.cons.injEq, true_and,
      List.append_cancel_left_eq]
    congr 1
    omega
  have e3 : jsSetAt (t0 :: t1 :: (s ++ List.replicate rest.length 0))
      (2 + s.length) ((t0 :: t1 :: rest).drop 2) =
      some (t0 :: t1 :: (s ++ rest)) := by
    rw [jsSetAt_of_le _ _ _
      (by simp only [List.length_cons, List.length_append,
        List.length_replicate, List.length_drop]; omega)]
    rw [hdp]
    have h3 : 2 + s.length + rest.length = s.length + rest.length + 1 + 1 := by
      omega
    rw [h3]
    have h2 : 2 + s.length = s.length + 1 + 1 := by omega
    rw [h2]
    simp only [List.take_succ_cons, List.drop_succ_cons]
    rw [List.take_left]
    have hdN : List.drop (s.length + rest.length)
        (s ++ List.replicate rest.length 0) = [] := by
      apply List.drop_eq_nil_of_le
      simp only [List.length_append, List.length_replicate]
      omega
    rw [hdN]
    simp
  rw [insertExifData]
  rw [e1]
  simp only [Option.some_bind]
  rw [e2]
  simp only [Option.some_bind]
  rw [e3]
  simp only [Option.getD_some]
  rw [htk, hdp]
  simp

/-! ## Claims C5 and C6 -/

/-- C5: `extractExifData` scans byte-by-byte for the first occurrence of the
two-byte marker `0xFF 0xE1`; if found at index `i` it reads the following two
bytes as a big-endian length (which includes the length field itself) and
returns the slice `[i, i+2+length)`; if the marker is not found anywhere it
returns `none`. -/
theorem extractExif_marker_scan (data : List ℕ) :
    (findFFE1 data = none → extractExifData data = none) ∧
    ∀ i, findFFE1 data = some i → i + 3 < data.length →
      extractExifData data =
        some ((data.drop i).take
          (2 + (256 * data.getD (i + 2) 0 + data.getD (i + 3) 0))) := by
  constructor
  · intro h
    simp [extractExifData, h]
  · intro i hi hl
    simp [extractExifData, hi, hl]

/-- Witness for C5 at concrete buffers: a marker-free buffer yields `none`;
a buffer with the marker at index 1 and declared length 4 yields the
six-byte slice starting at the marker. -/
theorem extractExif_marker_scan_witness :
    extractExifData [1, 2] = none ∧
    extractExifData [0, 255, 225, 0, 4, 7, 8, 9, 1] =
      some [255, 225, 0, 4, 7, 8] :=
  ⟨(extractExif_marker_scan [1, 2]).1 (by decide),
   (extractExif_marker_scan [0, 255, 225, 0, 4, 7, 8, 9, 1]).2 1 (by decide)
     (by decide)⟩

/-- C6: for a target buffer of length at least 2, `insertExifData` returns
the concatenation of the target's first two bytes, the entire segment, and
the remaining target bytes from offset 2 onwards, and the result's length is
the sum of the two input lengths. -/
theorem insertExif_splice_shape (t s : List ℕ) (h : 2 ≤ t.length) :
    insertExifData t s = t.take 2 ++ s ++ t.drop 2 ∧
    (insertExifData t s).length = t.length + s.length := by
  refine ⟨insertExifData_eq t s h, ?_⟩
  rw [insertExifData_eq t s h]
  simp only [List.length_append, List.length_take, List.length_drop]
  omega

/-- Witness for C6 at a concrete target and segment. -/
theorem insertExif_splice_shape_witness :
    insertExifData [1, 2, 3, 4] [9, 8] = [1, 2, 9, 8, 3, 4] ∧
    (insertExifData [1, 2, 3, 4] [9, 8]).length = 4 + 2 :=
  insertExif_splice_shape [1, 2, 3, 4] [9, 8] (by decide)

/-! ## Claim C8 -/

lemma jsSetAt_of_gt (dest : List ℕ) (off : ℕ) (src : List ℕ)
    (h : dest.length < off + src.length) :
    jsSetAt dest off src = none := by
  rw [jsSetAt, if_neg (by omega)]

lemma insertExifData_short (t s : List ℕ) (h : t.length < 2) :
    insertExifData t s = t := by
  have hc2 : ∀ r1 : List ℕ, r1.length = t.length + s.length →
      jsSetAt r1 2 s = none := by
    intro r1 hr1
    apply jsSetAt_of_gt
    omega
  rw [insertExifData]
  rw [jsSetAt_of_le _ _ _
    (by simp only [List.length_take, List.length_replicate]; omega)]
  simp only [Option.some_bind]
  rw [hc2 _ (by
    simp only [List.length_append, List.length_take, List.length_drop,
      List.length_replicate]
    omega)]
  simp

/-- C8: the metadata path is best-effort.  `exportBytes` is a total function
of the embedded export decision: when extraction finds no segment the encoded
buffer is delivered unchanged; when the splice's internal buffer write throws
(the target is shorter than two bytes) `insertExifData` returns its input
unchanged; and in every case the export delivers either the unmodified
encoded buffer or the encoded buffer with the extracted segment spliced in
after its first two bytes. -/
theorem export_metadata_best_effort (preserve isJpeg : Bool)
    (original encoded : List ℕ) :
    (extractExifData original = none →
      exportBytes preserve isJpeg original encoded = encoded) ∧
    (∀ s, encoded.length < 2 → insertExifData encoded s = encoded) ∧
    (exportBytes preserve isJpeg original encoded = encoded ∨
      ∃ exif, extractExifData original = some exif ∧
        exportBytes preserve isJpeg original encoded =
          encoded.take 2 ++ exif ++ encoded.drop 2) := by
  refine ⟨?_, fun s hs => insertExifData_short encoded s hs, ?_⟩
  · intro h
    cases preserve <;> simp [exportBytes, h]
  · by_cases hp : preserve = true
    · cases hx : extractExifData original with
      | none => left; simp [exportBytes, hp, hx]
      | some exif =>
        by_cases hj : isJpeg = true
        · by_cases hlen2 : 2 ≤ encoded.length
          · right
            refine ⟨exif, rfl, ?_⟩
            simp [exportBytes, hp, hx, hj, insertExifData_eq encoded exif hlen2]
          · left
            simp [exportBytes, hp, hx, hj,
              insertExifData_short encoded exif (by omega)]
        · left
          simp only [Bool.not_eq_true] at hj
          simp [exportBytes, hp, hx, hj]
    · left
      simp only [Bool.not_eq_true] at hp
      simp [exportBytes, hp]

/-- Witness for C8: a marker-free original buffer exports unchanged, and a
splice into a one-byte target returns the target unchanged. -/
theorem export_metadata_best_effort_witness :
    exportBytes true true [0, 1, 2] [9, 9, 9, 9] = [9, 9, 9, 9] ∧
    insertExifData [5] [1, 2, 3] = [5] :=
  ⟨(export_metadata_best_effort true true [0, 1, 2] [9, 9, 9, 9]).1
      (by decide),
   (export_metadata_best_effort true true [0, 1, 2] [5]).2.1 [1, 2, 3]
      (by decide)⟩

/-! ## Claim C7 -/

lemma findFFE1_cons_none {a b : ℕ} {l : List ℕ}
    (h : findFFE1 (a :: b :: l) = none) :
    ¬(a = 255 ∧ b = 225) ∧ findFFE1 (b :: l) = none := by
  rw [findFFE1_cons] at h
  by_cases hc : a = 255 ∧ b = 225
  · rw [if_pos hc] at h
    cases h
  · rw [if_neg hc] at h
    exact ⟨hc, Option.map_eq_none'.mp h⟩

lemma extractExifData_of_find {data : List ℕ} {i : ℕ}
    (h : findFFE1 data = some i) (hl : i + 3 < data.length) :
    extractExifData data =
      some ((data.drop i).take
        (2 + (256 * data.getD (i + 2) 0 + data.getD (i + 3) 0))) := by
  simp [extractExifData, h, hl]

lemma getD_take_drop (l : List ℕ) (i k n : ℕ) (hk : k < n) :
    ((l.drop i).take n).getD k 0 = l.getD (i + k) 0 := by
  simp only [List.getD_eq_getElem?_getD]
  rw [List.getElem?_take_of_lt hk, List.getElem?_drop]

/-- C7 counterexample: the claim fails as stated when the original segment is
truncated.  The original buffer `[0xFF, 0xE1, 0x00, 0x0A]` declares a segment
length of 10 but holds only 4 bytes, so the extracted segment is the whole
4-byte buffer; splicing it into the marker-free 3-byte target `[1, 2, 3]` and
re-extracting reads the declared length 10 again and returns 5 bytes,
including the trailing target byte — not the original segment. -/
theorem exif_roundtrip_counterexample :
    extractExifData [255, 225, 0, 10] = some [255, 225, 0, 10] ∧
    findFFE1 [1, 2, 3] = none ∧
    2 ≤ ([1, 2, 3] : List ℕ).length ∧
    extractExifData (insertExifData [1, 2, 3] [255, 225, 0, 10]) =
      some [255, 225, 0, 10, 3] ∧
    extractExifData (insertExifData [1, 2, 3] [255, 225, 0, 10]) ≠
      some [255, 225, 0, 10] := by decide

/-- C7 amended: the round-trip yields exactly the original segment provided
the extracted segment is complete — the declared length is at least 2 (so the
length bytes lie inside the segment) and the marker start plus `2 + length`
fits inside the original buffer — for every marker-free target of length at
least 2. -/
theorem exif_roundtrip_of_complete_segment (orig target seg : List ℕ)
    (i : ℕ) (hfind : findFFE1 orig = some i)
    (hL2 : 2 ≤ 256 * orig.getD (i + 2) 0 + orig.getD (i + 3) 0)
    (hfit : i + 2 + (256 * orig.getD (i + 2) 0 + orig.getD (i + 3) 0) ≤
      orig.length)
    (hseg : extractExifData orig = some seg)
    (hnomark : findFFE1 target = none)
    (htlen : 2 ≤ target.length) :
    extractExifData (insertExifData target seg) = some seg := by
  set L := 256 * orig.getD (i + 2) 0 + orig.getD (i + 3) 0 with hLdef
  have hl3 : i + 3 < orig.length := by omega
  have hsegval : seg = (orig.drop i).take (2 + L) := by
    have := extractExifData_of_find hfind hl3
    rw [hseg] at this
    exact (Option.some.injEq _ _).mp this.symm |>.symm
  have hseglen : seg.length = 2 + L := by
    rw [hsegval, List.length_take, List.length_drop]
    omega
  obtain ⟨hilen, h255, h225⟩ := findFFE1_eq_some hfind
  have hc0 : seg.getD 0 0 = 255 := by
    rw [hsegval, getD_take_drop _ _ _ _ (by omega)]
    simpa using h255
  have hc1 : seg.getD 1 0 = 225 := by
    rw [hsegval, getD_take_drop _ _ _ _ (by omega)]
    exact h225
  have hc2 : seg.getD 2 0 = orig.getD (i + 2) 0 := by
    rw [hsegval, getD_take_drop _ _ _ _ (by omega)]
  have hc3 : seg.getD 3 0 = orig.getD (i + 3) 0 := by
    rw [hsegval, getD_take_drop _ _ _ _ (by omega)]
  obtain ⟨c0, c1, c2, c3, stail, rfl⟩ :
      ∃ c0 c1 c2 c3 tl, seg = c0 :: c1 :: c2 :: c3 :: tl := by
    match seg, (show 4 ≤ seg.length by omega) with
    | c0 :: c1 :: c2 :: c3 :: tl, _ => exact ⟨c0, c1, c2, c3, tl, rfl⟩
  simp only [List.getD_cons_zero, List.getD_cons_succ] at hc0 hc1 hc2 hc3
  subst hc0 hc1
  obtain ⟨t0, t1, ttail, rfl⟩ : ∃ t0 t1 tl, target = t0 :: t1 :: tl := by
    match target, htlen with
    | t0 :: t1 :: tl, _ => exact ⟨t0, t1, tl, rfl⟩
  obtain ⟨hpair, _⟩ := findFFE1_cons_none hnomark
  have hsplice : insertExifData (t0 :: t1 :: ttail)
      (255 :: 225 :: c2 :: c3 :: stail) =
      t0 :: t1 :: 255 :: 225 :: c2 :: c3 :: (stail ++ ttail) := by
    rw [insertExifData_eq _ _ (by simp)]
    simp
  rw [hsplice]
  have hfound : findFFE1
      (t0 :: t1 :: 255 :: 225 :: c2 :: c3 :: (stail ++ ttail)) = some 2 := by
    rw [findFFE1_cons, if_neg hpair, findFFE1_cons,
      if_neg (by simp), findFFE1_cons, if_pos ⟨rfl, rfl⟩]
    rfl
  rw [extractExifData_of_find hfound
    (by simp only [List.length_cons]; omega)]
  have hg4 : (t0 :: t1 :: 255 :: 225 :: c2 :: c3 ::
      (stail ++ ttail)).getD (2 + 2) 0 = c2 := by
    simp
  have hg5 : (t0 :: t1 :: 255 :: 225 :: c2 :: c3 ::
      (stail ++ ttail)).getD (2 + 3) 0 = c3 := by
    simp
  rw [hg4, hg5]
  have hdrop2 : (t0 :: t1 :: 255 :: 225 :: c2 :: c3 ::
      (stail ++ ttail)).drop 2 =
      (255 :: 225 :: c2 :: c3 :: stail) ++ ttail := by
    simp
  rw [hdrop2]
  have hlen2L : 2 + (256 * c2 + c3) =
      (255 :: 225 :: c2 :: c3 :: stail).length := by
    simp only [List.length_cons] at hseglen ⊢
    omega
  rw [hlen2L, List.take_left]

/-- Witness for C7's amended theorem at a complete 4-byte segment with
declared length 2 and a marker-free 2-byte target. -/
theorem exif_roundtrip_witness :
    extractExifData (insertExifData [7, 8] [255, 225, 0, 2]) =
      some [255, 225, 0, 2] :=
  exif_roundtrip_of_complete_segment [255, 225, 0, 2] [7, 8]
    [255, 225, 0, 2] 0 (by decide) (by decide) (by decide) (by decide)
    (by decide) (by decide)

/-! ## Claims C2, C3, C4 -/

/-- C2: for zoom factors in `[0.5, 3]`, the resolved width and height are
independent of zoom for percent-unit crops (and equal the floor of
`crop/100 * natural`), while for pixel-unit crops they are computed with the
effective scale `scaleX / zoom`, whose pre-floor value scales inversely with
zoom: multiplying it back by the zoom factor recovers the zoom-free
quantity `crop * scaleX` for every zoom in range. -/
theorem sourceRect_zoom_scaling (cx cy cw ch nw nh dw dh z1 z2 : ℚ)
    (hz1l : 1 / 2 ≤ z1) (hz1u : z1 ≤ 3) (hz2l : 1 / 2 ≤ z2) (hz2u : z2 ≤ 3) :
    ((resolveSourceRect true cx cy cw ch nw nh dw dh z1).w =
        (resolveSourceRect true cx cy cw ch nw nh dw dh z2).w ∧
      (resolveSourceRect true cx cy cw ch nw nh dw dh z1).h =
        (resolveSourceRect true cx cy cw ch nw nh dw dh z2).h ∧
      (resolveSourceRect true cx cy cw ch nw nh dw dh z1).w =
        (⌊cw / 100 * nw⌋ : ℤ) ∧
      (resolveSourceRect true cx cy cw ch nw nh dw dh z1).h =
        (⌊ch / 100 * nh⌋ : ℤ)) ∧
    ((resolveSourceRect false cx cy cw ch nw nh dw dh z1).w =
        (⌊cw * ((nw / dw) / z1)⌋ : ℤ) ∧
      (resolveSourceRect false cx cy cw ch nw nh dw dh z1).h =
        (⌊ch * ((nh / dh) / z1)⌋ : ℤ)) ∧
    (cw * ((nw / dw) / z1)) * z1 = (cw * ((nw / dw) / z2)) * z2 ∧
    (ch * ((nh / dh) / z1)) * z1 = (ch * ((nh / dh) / z2)) * z2 := by
  have h1 : z1 ≠ 0 := by
    intro h
    rw [h] at hz1l
    norm_num at hz1l
  have h2 : z2 ≠ 0 := by
    intro h
    rw [h] at hz2l
    norm_num at hz2l
  refine ⟨⟨rfl, rfl, rfl, rfl⟩, ⟨rfl, rfl⟩, ?_, ?_⟩
  · calc (cw * ((nw / dw) / z1)) * z1 = cw * ((nw / dw) / z1 * z1) := by ring
      _ = cw * (nw / dw) := by rw [div_mul_cancel₀ _ h1]
      _ = cw * ((nw / dw) / z2 * z2) := by rw [div_mul_cancel₀ _ h2]
      _ = (cw * ((nw / dw) / z2)) * z2 := by ring
  · calc (ch * ((nh / dh) / z1)) * z1 = ch * ((nh / dh) / z1 * z1) := by ring
      _ = ch * (nh / dh) := by rw [div_mul_cancel₀ _ h1]
      _ = ch * ((nh / dh) / z2 * z2) := by rw [div_mul_cancel₀ _ h2]
      _ = (ch * ((nh / dh) / z2)) * z2 := by ring

/-- Witness for C2 at a concrete image, crop and the zoom pair 1 and 2. -/
theorem sourceRect_zoom_scaling_witness :
    ((resolveSourceRect true 0 0 10 10 400 200 200 100 1).w =
        (resolveSourceRect true 0 0 10 10 400 200 200 100 2).w ∧
      (resolveSourceRect true 0 0 10 10 400 200 200 100 1).h =
        (resolveSourceRect true 0 0 10 10 400 200 200 100 2).h ∧
      (resolveSourceRect true 0 0 10 10 400 200 200 100 1).w =
        (⌊(10 : ℚ) / 100 * 400⌋ : ℤ) ∧
      (resolveSourceRect true 0 0 10 10 400 200 200 100 1).h =
        (⌊(10 : ℚ) / 100 * 200⌋ : ℤ)) ∧
    ((resolveSourceRect false 0 0 10 10 400 200 200 100 1).w =
        (⌊(10 : ℚ) * ((400 / 200) / 1)⌋ : ℤ) ∧
      (resolveSourceRect false 0 0 10 10 400 200 200 100 1).h =
        (⌊(10 : ℚ) * ((200 / 100) / 1)⌋ : ℤ)) ∧
    ((10 : ℚ) * ((400 / 200) / 1)) * 1 = ((10 : ℚ) * ((400 / 200) / 2)) * 2 ∧
    ((10 : ℚ) * ((200 / 100) / 1)) * 1 = ((10 : ℚ) * ((200 / 100) / 2)) * 2 :=
  sourceRect_zoom_scaling 0 0 10 10 400 200 200 100 1 2 (by norm_num)
    (by norm_num) (by norm_num) (by norm_num)

/-- C3 counterexample: the resolved `x` coordinate is not floored.  With a
percent crop `x = 1` on a 150-pixel-wide natural image, the code passes
`cropX = 1.5` to `drawImage`, which differs from its floor. -/
theorem sourceRect_xy_not_floored :
    (resolveSourceRect true 1 0 10 10 150 100 150 100 1).x = 3 / 2 ∧
    ((⌊(3 / 2 : ℚ)⌋ : ℚ) ≠ (3 / 2 : ℚ)) := by
  constructor
  · simp only [resolveSourceRect, if_true]
    norm_num
  · norm_num

/-- C3 amended: only the resolved width and height are floored to integers
(their denominators are 1 for every input); the `x` and `y` coordinates are
passed to `drawImage` as computed, without flooring. -/
theorem sourceRect_wh_integral (u : Bool) (cx cy cw ch nw nh dw dh z : ℚ) :
    ((resolveSourceRect u cx cy cw ch nw nh dw dh z).w).den = 1 ∧
    ((resolveSourceRect u cx cy cw ch nw nh dw dh z).h).den = 1 := by
  cases u <;> simp [resolveSourceRect, Rat.den_intCast]

/-- C4: the transform compositor issues exactly the claimed ordered sequence
of affine operations — flip translate, flip scale, center translate, rotate
by `rotation * π / 180`, uncenter translate — with the flip operations
strictly preceding the rotation: running the code's sequential context calls
equals interpreting that five-element operation list in order, over any
field, any cosine/sine pair, and any starting matrix. -/
theorem transform_sequence_matches_claimed_ops {K : Type} [Field K]
    (cosF sinF : K → K) (piK W H : K) (flipHorizontal flipVertical : Bool)
    (rotation : K) (m : Ctx K) :
    codeApplyTransforms cosF sinF piK W H flipHorizontal flipVertical
        rotation m =
      applyOps cosF sinF m
        (claimedOps piK W H flipHorizontal flipVertical rotation) := rfl

/-- Witness for C4 over `ℚ` with both flips on and a 90-degree rotation. -/
theorem transform_sequence_witness :
    codeApplyTransforms (K := ℚ) id id 3 10 20 true true 90
        ⟨1, 0, 0, 1, 0, 0⟩ =
      applyOps id id ⟨1, 0, 0, 1, 0, 0⟩ (claimedOps 3 10 20 true true 90) :=
  transform_sequence_matches_claimed_ops id id 3 10 20 true true 90
    ⟨1, 0, 0, 1, 0, 0⟩

/-! ## Claims C1, C9, C10 -/

lemma toByte_of_nat (n : ℕ) (h : n ≤ 255) : toByte (n : ℚ) = n := by
  unfold toByte clamp255 roundHalfEven
  have h0 : max 0 (n : ℚ) = (n : ℚ) := max_eq_right (by positivity)
  have h1 : min 255 (n : ℚ) = (n : ℚ) := min_eq_right (by exact_mod_cast h)
  rw [h0, h1, Int.floor_natCast]
  push_cast
  rw [sub_self, if_pos (by norm_num)]
  simp

/-- C1 counterexample: with all manual values at 100 and the non-identity
`clarendon` filter active, the pixel loop leaves every pixel unchanged,
although the filter's brightness multiplier is `21/20 ≠ 1` and applying it
to channel value 100 would store 105. -/
theorem manual_identity_skips_filter_stage :
    applyAdjustments 100 100 100 (some clarendon) [⟨100, 100, 100, 255⟩] =
      [⟨100, 100, 100, 255⟩] ∧
    effVal 100 (some clarendon.brightness) = 21 / 20 ∧
    toByte ((100 : ℚ) * effVal 100 (some clarendon.brightness)) = 105 := by
  refine ⟨rfl, ?_, ?_⟩
  · show ((105 : ℚ) / 100) * ((100 : ℚ) / 100) = 21 / 20
    norm_num
  · have he : (100 : ℚ) * effVal 100 (some clarendon.brightness) =
        ((105 : ℕ) : ℚ) := by
      show (100 : ℚ) * (((105 : ℚ) / 100) * ((100 : ℚ) / 100)) =
        ((105 : ℕ) : ℚ)
      norm_num
    rw [he, toByte_of_nat 105 (by norm_num)]

/-- C1 amended: the effective multipliers are computed multiplicatively
(filter value / 100 times manual value / 100), but each stage is applied
only when its manual value differs from 100: when a manual value equals 100
that stage is skipped entirely — the filter's multiplier for that stage
included — and with all three manual values at 100 the whole pass leaves the
buffer unchanged even with a filter active. -/
theorem effective_multipliers_and_manual_gating (m f : ℕ) (v : ℚ) (p : Pixel)
    (fp : FilterPreset) (px : List Pixel) (hm : m = 100) :
    effVal m (some f) = ((f : ℚ) / 100) * ((m : ℚ) / 100) ∧
    stageBrightness m v p = p ∧
    stageContrast m v p = p ∧
    stageSaturation m v p = p ∧
    applyAdjustments 100 100 100 (some fp) px = px := by
  subst hm
  refine ⟨rfl, rfl, rfl, rfl, ?_⟩
  have hpix : applyPixel 100 100 100 (some fp) = id := funext fun q => rfl
  unfold applyAdjustments
  split
  · rw [hpix, List.map_id]
  · rfl

/-- Witness for C1's amended theorem at manual value 100, filter multiplier
105, a concrete pixel and a one-pixel buffer with the `clarendon` filter. -/
theorem effective_multipliers_and_manual_gating_witness :
    effVal 100 (some 105) = ((105 : ℚ) / 100) * ((100 : ℚ) / 100) ∧
    stageBrightness 100 (21 / 20) ⟨1, 2, 3, 4⟩ = ⟨1, 2, 3, 4⟩ ∧
    stageContrast 100 (21 / 20) ⟨1, 2, 3, 4⟩ = ⟨1, 2, 3, 4⟩ ∧
    stageSaturation 100 (21 / 20) ⟨1, 2, 3, 4⟩ = ⟨1, 2, 3, 4⟩ ∧
    applyAdjustments 100 100 100 (some clarendon) [⟨9, 9, 9, 9⟩] =
      [⟨9, 9, 9, 9⟩] :=
  effective_multipliers_and_manual_gating 100 105 (21 / 20) ⟨1, 2, 3, 4⟩
    clarendon [⟨9, 9, 9, 9⟩] rfl

/-- C9 counterexample: the contrast factor computation is not guarded.  At
an effective contrast value `c = 259/255` the denominator `255*(259 - c*255)`
is exactly zero, and the stage still evaluates the division (total division
by zero yields 0 in the `ℚ` model, `Infinity` in JavaScript): every channel
then collapses to 128, with no guard branch intervening. -/
theorem contrast_divzero_unguarded :
    (255 : ℚ) * (259 - (259 / 255 : ℚ) * 255) = 0 ∧
    contrastFactor (259 / 255) = 0 ∧
    stageContrast 120 (259 / 255) ⟨200, 50, 128, 255⟩ =
      ⟨128, 128, 128, 255⟩ := by
  have hden : (255 : ℚ) * (259 - (259 / 255 : ℚ) * 255) = 0 := by norm_num
  have hf : contrastFactor (259 / 255) = 0 := by
    rw [contrastFactor, hden, div_zero]
  refine ⟨hden, hf, ?_⟩
  rw [stageContrast, if_pos (by decide)]
  have h128 : ∀ x : ℚ, contrastFactor (259 / 255) * (x - 128) + 128 =
      ((128 : ℕ) : ℚ) := by
    intro x
    rw [hf]
    norm_num
  rw [h128, h128, h128, toByte_of_nat 128 (by norm_num)]

/-- C9 amended: no division-by-zero guard exists in the code, but the zero
denominator is unreachable: for every manual contrast percentage and every
optional filter multiplier percentage (both natural numbers, as the sliders
and the preset table produce), the effective contrast value `c` satisfies
`255 * (259 - c * 255) ≠ 0`, so the unguarded division never divides by
zero. -/
theorem contrast_denominator_never_zero (m : ℕ) (fo : Option ℕ) :
    255 * (259 - effVal m fo * 255) ≠ (0 : ℚ) := by
  intro h
  rcases mul_eq_zero.mp h with h255 | hsub
  · norm_num at h255
  · have hc : effVal m fo * 255 = 259 := by linarith
    cases fo with
    | none =>
      simp only [effVal] at hc
      have hq : (m : ℚ) * 255 = 25900 := by
        field_simp at hc
        linarith
      have hm : m * 255 = 25900 := by exact_mod_cast hq
      omega
    | some f =>
      simp only [effVal] at hc
      have hq : (f : ℚ) * m * 255 = 2590000 := by
        field_simp at hc
        linarith
      have hfm : f * m * 255 = 2590000 := by exact_mod_cast hq
      have hdvd : (255 : ℕ) ∣ 2590000 := ⟨f * m, by rw [← hfm]; ring⟩
      norm_num at hdvd

/-- Witness for C9's amended theorem at manual contrast 120 with the
`clarendon` contrast multiplier 120. -/
theorem contrast_denominator_never_zero_witness :
    255 * (259 - effVal 120 (some 120) * 255) ≠ (0 : ℚ) :=
  contrast_denominator_never_zero 120 (some 120)

lemma applyPixel_a (b c s : ℕ) (fo : Option FilterPreset) (p : Pixel) :
    (applyPixel b c s fo p).a = p.a := by
  unfold applyPixel stageBrightness stageContrast stageSaturation
  split_ifs <;> rfl

/-- C10: the pixel adjustment pass modifies only the colour bytes; the alpha
byte of every pixel is unchanged for every parameter combination. -/
theorem alpha_channel_preserved (b c s : ℕ) (fo : Option FilterPreset)
    (px : List Pixel) :
    (applyAdjustments b c s fo px).map Pixel.a = px.map Pixel.a := by
  unfold applyAdjustments
  split
  · simp [List.map_map, Function.comp, applyPixel_a]
  · rfl
